import Mathlib

/-!
Shallow embedding of the request/bid lifecycle of the `move_my_pallets`
repository (a Flask + sqlite3 application).  Rows of the `user`, `request`
and `bid` tables become Lean structures; each route handler of
`logistics/customer_routes.py` and `logistics/supplier_routes.py` becomes a
pure function from a database state (plus the authenticated caller, mirroring
Flask's `g.user`) to a new database state together with the HTTP-level effect
(redirect / rendered template / flashed messages / abort / unhandled Python
exception).  Status values are the literal strings the source compares
against.  Dates are modelled as day ordinals (`Nat`).
-/

namespace MoveMyPallets

/-- A row of the `user` table (the fields the lifecycle code reads:
`id`, `company`, `user_type`; `g.user` carries such a row). -/
structure User where
  id : Nat
  company : String
  user_type : String
deriving DecidableEq

/-- A row of the `request` table, with the columns used by
`customer_routes.py` and `supplier_routes.py`. -/
structure Request where
  id : Nat
  created_by : Nat
  collection_date : Nat
  delivery_date : Nat
  collection_address : String
  delivery_address : String
  pallets : Nat
  weight : Nat
  company : String
  request_status : String
deriving DecidableEq

/-- A row of the `bid` table (`bid_amount` comes from a WTForms
`StringField`, hence `String`). -/
structure Bid where
  id : Nat
  request_id : Nat
  created_by : Nat
  bid_amount : String
  bid_status : String
deriving DecidableEq

/-- The sqlite database state.  `nextRequestId` / `nextBidId` model the
integer primary keys the gateway assigns on insert (per the spec they are
unique and immutable for the record's lifetime). -/
structure DB where
  users : List User
  requests : List Request
  bids : List Bid
  nextRequestId : Nat
  nextBidId : Nat
deriving DecidableEq

/-- The HTTP-level outcome of a route handler. -/
inductive Action where
  | redirect (endpoint : String)
  | rendered (template : String)
  | returnedNone
  | httpError (code : Nat)
  | pythonError (msg : String)
deriving DecidableEq

/-- A route handler's response: the flashed `(message, category)` pairs plus
the final action. -/
structure Response where
  flashes : List (String × String)
  action : Action
deriving DecidableEq

/-- `SELECT ... FROM bid WHERE id = ?` followed by `fetchone()`. -/
def DB.findBid (db : DB) (bidId : Nat) : Option Bid :=
  db.bids.find? (fun b => b.id = bidId)

/-- `SELECT ... FROM request WHERE id = ?` followed by `fetchone()`. -/
def DB.findRequest (db : DB) (rid : Nat) : Option Request :=
  db.requests.find? (fun r => r.id = rid)

/-- The `bid_status` column of the first bid row with the given id. -/
def DB.bidStatus (db : DB) (bidId : Nat) : Option String :=
  (db.findBid bidId).map (fun b => b.bid_status)

/-- The `request_status` column of the first request row with the given id. -/
def DB.requestStatus (db : DB) (rid : Nat) : Option String :=
  (db.findRequest rid).map (fun r => r.request_status)

/-- `UPDATE request SET request_status = ? WHERE id = ?`. -/
def updateRequestStatusWhereId (db : DB) (rid : Nat) (s : String) : DB :=
  { db with requests :=
      db.requests.map (fun r => if r.id = rid then { r with request_status := s } else r) }

/-- `UPDATE bid SET bid_status = ? WHERE id = ?`. -/
def updateBidStatusWhereId (db : DB) (bidId : Nat) (s : String) : DB :=
  { db with bids :=
      db.bids.map (fun b => if b.id = bidId then { b with bid_status := s } else b) }

/-- `UPDATE bid SET bid_status = ? WHERE request_id = ? AND id is not ?`
(the sibling-rejection statement of `accept_bid`). -/
def updateBidStatusWhereRequestAndNotId (db : DB) (rid bidId : Nat) (s : String) : DB :=
  { db with bids :=
      db.bids.map (fun b =>
        if b.request_id = rid ∧ ¬ b.id = bidId then { b with bid_status := s } else b) }

/-- `SELECT COUNT(request_id) FROM bid WHERE bid_status is not 'Rejected' AND
request_id = ?` returns the length of this list (the pre-mutation count used
by `reject_bid`, customer_routes.py:420-427). -/
def activeBids (db : DB) (rid : Nat) : List Bid :=
  db.bids.filter (fun b => ¬ b.bid_status = "Rejected" ∧ b.request_id = rid)

/-- The bids on a request whose status is `'Accepted'`. -/
def acceptedBids (db : DB) (rid : Nat) : List Bid :=
  db.bids.filter (fun b => b.request_id = rid ∧ b.bid_status = "Accepted")

/-- The redirect issued by the auth decorators when the role check fails. -/
def loginRedirect : Response := { flashes := [], action := Action.redirect "auth.login" }

/-- `customer_only` decorator (auth.py:228-242): runs the wrapped view only
when the caller's `user_type` equals `"Customer"`, otherwise redirects to the
login page.  The caller's company is not examined. -/
def customer_only (caller : User) (view : DB → DB × Response) (db : DB) : DB × Response :=
  if caller.user_type = "Customer" then view db else (db, loginRedirect)

/-- `supplier_only` decorator (auth.py:211-225): role gate on
`user_type = "Supplier"`; the company is not examined. -/
def supplier_only (caller : User) (view : DB → DB × Response) (db : DB) : DB × Response :=
  if caller.user_type = "Supplier" then view db else (db, loginRedirect)

/-- Modelled from the spec: the database schema (`schema.sql`) is not among
the source files; per the spec a newly inserted `Bid` has status `Pending`
(the INSERT in `submit_bid` names no status column, so the schema default
applies). -/
def defaultBidStatus : String := "Pending"

/-- Modelled from the spec: the database schema (`schema.sql`) is not among
the source files; per the spec a newly inserted `Request` has status
`Awaiting bids` (the INSERT in `create_request` names no status column, so
the schema default applies). -/
def defaultRequestStatus : String := "Awaiting bids"

/-- The validated data of `RequestForm` (forms.py:37-61); dates are day
ordinals. -/
structure RequestFormData where
  collection_date : Nat
  delivery_date : Nat
  collection_address : String
  delivery_address : String
  pallets : Nat
  weight : Nat
deriving DecidableEq

/-- The data of `BidForm` (forms.py:64-66). -/
structure BidFormData where
  bid_amount : String
deriving DecidableEq

/-- `validate_collectionBy` (forms.py:12-16): returns `true` exactly when the
validator raises `ValidationError`, i.e. when the collection date is before
`today`. -/
def validate_collectionBy (today : Nat) (data : Nat) : Bool :=
  data < today

/-- `validate_deliveryBy` (forms.py:18-20): returns `true` exactly when the
validator raises `ValidationError`, i.e. when the delivery date is less than
or equal to the collection date. -/
def validate_deliveryBy (collection_date : Nat) (data : Nat) : Bool :=
  data ≤ collection_date

/-- POST branch of `create_request` (customer_routes.py:53-101).  The handler
reads the form fields and inserts the row directly; `form.validate` is never
invoked, so no date check happens before the INSERT. -/
def create_request_view (caller : User) (form : RequestFormData) (db : DB) : DB × Response :=
  let newRequest : Request :=
    { id := db.nextRequestId
      created_by := caller.id
      collection_date := form.collection_date
      delivery_date := form.delivery_date
      collection_address := form.collection_address
      delivery_address := form.delivery_address
      pallets := form.pallets
      weight := form.weight
      company := caller.company
      request_status := defaultRequestStatus }
  ({ db with requests := db.requests ++ [newRequest], nextRequestId := db.nextRequestId + 1 },
   { flashes := [], action := Action.redirect "customer_routes.customer_requests" })

/-- `create_request` route: `create_request_view` wrapped in `@customer_only`. -/
def create_request (caller : User) (form : RequestFormData) (db : DB) : DB × Response :=
  customer_only caller (create_request_view caller form) db

/-- POST branch of `update_request` (customer_routes.py:268-329):
`customer_get_request` aborts with 404 when the id does not exist; otherwise
the logistics fields are updated (`request_status` is not touched). -/
def update_request_view (id : Nat) (form : RequestFormData) (db : DB) : DB × Response :=
  match db.findRequest id with
  | none => (db, { flashes := [], action := Action.httpError 404 })
  | some this_request =>
    ({ db with requests :=
        db.requests.map (fun r =>
          if r.id = this_request.id then
            { r with
              collection_address := form.collection_address
              delivery_address := form.delivery_address
              collection_date := form.collection_date
              delivery_date := form.delivery_date
              pallets := form.pallets
              weight := form.weight }
          else r) },
     { flashes := [("Request updated successfully.", "success")],
       action := Action.redirect "customer_routes.view_request" })

/-- `update_request` route wrapped in `@customer_only`. -/
def update_request (caller : User) (id : Nat) (form : RequestFormData) (db : DB) : DB × Response :=
  customer_only caller (update_request_view id form) db

/-- `remove_request` (customer_routes.py:216-265): flashes and redirects when
the request does not exist; flashes an error and falls off the function
(returning `None`) when the request is `Complete`; otherwise deletes the
request row and redirects. -/
def remove_request_view (id : Nat) (db : DB) : DB × Response :=
  let request_status := db.requestStatus id
  if request_status = none then
    (db, { flashes := [("Request does not exist. No request to remove.", "error")],
           action := Action.redirect "customer_routes.customer_requests" })
  else if request_status = some "Complete" then
    (db, { flashes := [("Request is complete. Unable to remove.", "error")],
           action := Action.returnedNone })
  else
    ({ db with requests := db.requests.filter (fun x => ¬ x.id = id) },
     { flashes := [("Request deleted successfully.", "success")],
       action := Action.redirect "customer_routes.customer_requests" })

/-- `remove_request` route wrapped in `@customer_only`. -/
def remove_request (caller : User) (id : Nat) (db : DB) : DB × Response :=
  customer_only caller (remove_request_view id) db

/-- `accept_bid` (customer_routes.py:332-390): looks up the bid's
`request_id`; when the bid exists it sets the request `Complete`, the target
bid `Accepted` and every other bid on the same request `Rejected`, then
commits; when the bid does not exist the `if request_id:` block is skipped
and the view falls through, returning `None` with no flash. -/
def accept_bid_view (bid_id : Nat) (db : DB) : DB × Response :=
  match (db.findBid bid_id).map (fun b => b.request_id) with
  | none => (db, { flashes := [], action := Action.returnedNone })
  | some request_id =>
    let db1 := updateRequestStatusWhereId db request_id "Complete"
    let db2 := updateBidStatusWhereId db1 bid_id "Accepted"
    let db3 := updateBidStatusWhereRequestAndNotId db2 request_id bid_id "Rejected"
    (db3, { flashes := [], action := Action.redirect "customer_routes.view_request" })

/-- `accept_bid` route wrapped in `@customer_only`. -/
def accept_bid (caller : User) (bid_id : Nat) (db : DB) : DB × Response :=
  customer_only caller (accept_bid_view bid_id) db

/-- `reject_bid` (customer_routes.py:393-452): fetches the bid's
`request_id`; the COUNT query then subscripts that row (`request_id[0]`)
outside the `try`, so a missing bid raises an unhandled `TypeError`.  When
the bid exists, the count of non-Rejected bids on the request is taken
before the target bid is mutated; the target bid is set `Rejected`, and if
the pre-mutation count equals 1 the request is set back to
`"Awaiting bids"`. -/
def reject_bid_view (bid_id : Nat) (db : DB) : DB × Response :=
  match (db.findBid bid_id).map (fun b => b.request_id) with
  | none =>
    (db, { flashes := [],
           action := Action.pythonError "TypeError: NoneType object is not subscriptable" })
  | some request_id =>
    let number_of_bids := (activeBids db request_id).length
    let db1 := updateBidStatusWhereId db bid_id "Rejected"
    let db2 :=
      if number_of_bids = 1 then updateRequestStatusWhereId db1 request_id "Awaiting bids"
      else db1
    (db2, { flashes := [], action := Action.redirect "customer_routes.view_request" })

/-- `reject_bid` route wrapped in `@customer_only`. -/
def reject_bid (caller : User) (bid_id : Nat) (db : DB) : DB × Response :=
  customer_only caller (reject_bid_view bid_id) db

/-- POST branch of `submit_bid` (supplier_routes.py:208-263): inserts the bid
(status defaulting to `Pending`) and unconditionally sets the request's
status to `"Bid(s) received"`; there is no guard on the request's current
status nor on its existence. -/
def submit_bid_view (id : Nat) (caller : User) (form : BidFormData) (db : DB) : DB × Response :=
  let newBid : Bid :=
    { id := db.nextBidId
      request_id := id
      created_by := caller.id
      bid_amount := form.bid_amount
      bid_status := defaultBidStatus }
  let db1 := { db with bids := db.bids ++ [newBid], nextBidId := db.nextBidId + 1 }
  let db2 := updateRequestStatusWhereId db1 id "Bid(s) received"
  (db2, { flashes := [], action := Action.redirect "supplier_routes.my_bids" })

/-- `submit_bid` route wrapped in `@supplier_only`. -/
def submit_bid (caller : User) (id : Nat) (form : BidFormData) (db : DB) : DB × Response :=
  supplier_only caller (submit_bid_view id caller form) db

/-- `u.company` of the user row joined on `b.created_by = u.id`. -/
def userCompany (db : DB) (uid : Nat) : Option String :=
  (db.users.find? (fun u => u.id = uid)).map (fun u => u.company)

/-- The derived table `cb` of `supplier_requests` (supplier_routes.py:43-51):
bids joined with their creator's user row, restricted to the given company. -/
def companyBids (db : DB) (c : String) : List Bid :=
  db.bids.filter (fun b => userCompany db b.created_by = some c)

/-- First query of `supplier_requests` (supplier_routes.py:31-56):
`request LEFT JOIN cb ON cb.request_id = r.id WHERE cb.company is not ? AND
r.request_status is not 'Complete'`.  A request with no `cb` match yields one
row with a NULL `cb.company` (which passes the `is not` filter); each match
yields a row carrying `cb.company = c` (which fails it). -/
def live_requests_not_bid (db : DB) (c : String) : List Request :=
  ((db.requests.flatMap (fun r =>
      match (companyBids db c).filter (fun b => b.request_id = r.id) with
      | [] => [(r, (none : Option String))]
      | ms => ms.map (fun _ => (r, some c)))).filter
    (fun rc => ¬ rc.2 = some c ∧ ¬ rc.1.request_status = "Complete")).map (fun rc => rc.1)

/-- Second query of `supplier_requests` (supplier_routes.py:58-78):
`request LEFT JOIN bid LEFT JOIN user WHERE b.id is not null AND u.company =
? AND r.request_status is not 'Complete'` — one row per bid by the company on
a non-Complete request. -/
def requests_bid (db : DB) (c : String) : List (Request × Bid) :=
  (db.requests.flatMap (fun r =>
      (db.bids.filter (fun b => b.request_id = r.id)).map (fun b => (r, b)))).filter
    (fun rb => userCompany db rb.2.created_by = some c ∧ ¬ rb.1.request_status = "Complete")

/-- Third query of `supplier_requests` (supplier_routes.py:80-100):
rows where `b.bid_status is not 'Rejected' AND u.company = ? AND
r.request_status = 'Complete'`. -/
def requests_bid_won (db : DB) (c : String) : List (Request × Bid) :=
  (db.requests.flatMap (fun r =>
      (db.bids.filter (fun b => b.request_id = r.id)).map (fun b => (r, b)))).filter
    (fun rb => ¬ rb.2.bid_status = "Rejected" ∧ userCompany db rb.2.created_by = some c ∧
      rb.1.request_status = "Complete")

/-- A lifecycle operation together with its arguments (the caller is the
authenticated identity context). -/
inductive Op where
  | createRequest (caller : User) (form : RequestFormData)
  | updateRequest (caller : User) (id : Nat) (form : RequestFormData)
  | cancelRequest (caller : User) (id : Nat)
  | submitBid (caller : User) (id : Nat) (form : BidFormData)
  | acceptBid (caller : User) (bid_id : Nat)
  | rejectBid (caller : User) (bid_id : Nat)

/-- Dispatch an operation to its route handler. -/
def runOp (db : DB) : Op → DB × Response
  | Op.createRequest caller form => create_request caller form db
  | Op.updateRequest caller id form => update_request caller id form db
  | Op.cancelRequest caller id => remove_request caller id db
  | Op.submitBid caller id form => submit_bid caller id form db
  | Op.acceptBid caller bid_id => accept_bid caller bid_id db
  | Op.rejectBid caller bid_id => reject_bid caller bid_id db

/-- The database state after an operation. -/
def applyOp (db : DB) (op : Op) : DB := (runOp db op).1

/-- The empty initial database. -/
def DB.empty : DB :=
  { users := [], requests := [], bids := [], nextRequestId := 1, nextBidId := 1 }

/-- Run a list of operations from the empty database. -/
def runTrace (ops : List Op) : DB := ops.foldl applyOp DB.empty

/-- The states reachable from the empty database by lifecycle operations. -/
inductive Reachable : DB → Prop where
  | init : Reachable DB.empty
  | step {db : DB} (op : Op) : Reachable db → Reachable (applyOp db op)

/-- A customer user of company Acme. -/
def custA : User := { id := 1, company := "Acme", user_type := "Customer" }

/-- A supplier user of company ShipCo. -/
def suppB : User := { id := 2, company := "ShipCo", user_type := "Supplier" }

/-- A customer of an unrelated company, used to exercise the authorization
claims. -/
def custOther : User := { id := 3, company := "Globex", user_type := "Customer" }

/-- A well-formed request form input. -/
def sampleForm : RequestFormData :=
  { collection_date := 10, delivery_date := 12, collection_address := "A",
    delivery_address := "B", pallets := 2, weight := 100 }

/-- Create a request, bid on it, accept the bid (the request is now
Complete with one Accepted bid), then submit a further bid against the
Complete request. -/
def traceAcceptedNotComplete : List Op :=
  [Op.createRequest custA sampleForm,
   Op.submitBid suppB 1 { bid_amount := "100" },
   Op.acceptBid custA 1,
   Op.submitBid suppB 1 { bid_amount := "90" }]

/-- The state after `traceAcceptedNotComplete`. -/
def dbAcceptedNotComplete : DB := runTrace traceAcceptedNotComplete

/-- The Complete state reached by the first three operations of
`traceAcceptedNotComplete`: request 1 is Complete, bid 1 Accepted. -/
def dbComplete : DB := runTrace (traceAcceptedNotComplete.take 3)

/-- A two-Pending-bid state: request 1 has Pending bids 1 and 2. -/
def dbTwoPending : DB :=
  runTrace
    [Op.createRequest custA sampleForm,
     Op.submitBid suppB 1 { bid_amount := "100" },
     Op.submitBid suppB 1 { bid_amount := "90" }]

/-- A single-Pending-bid state: request 1 has the lone Pending bid 1. -/
def dbSinglePending : DB :=
  runTrace
    [Op.createRequest custA sampleForm,
     Op.submitBid suppB 1 { bid_amount := "100" }]

/-- Request 1 with Rejected bid 1 and Pending bid 2 (exactly one active bid,
reached by rejecting bid 1 while bid 2 kept the request at
"Bid(s) received"). -/
def dbOneRejectedOneActive : DB :=
  runTrace
    [Op.createRequest custA sampleForm,
     Op.submitBid suppB 1 { bid_amount := "100" },
     Op.submitBid suppB 1 { bid_amount := "90" },
     Op.rejectBid custA 1]

/-- The first bid the sample traces insert. -/
def pendingBidOne : Bid :=
  { id := 1, request_id := 1, created_by := 2, bid_amount := "100", bid_status := "Pending" }

/-- `pendingBidOne` after a rejection. -/
def rejectedBidOne : Bid := { pendingBidOne with bid_status := "Rejected" }

/-- Request 1 of the sample traces once a bid has arrived. -/
def requestOneBidsReceived : Request :=
  { id := 1, created_by := 1, collection_date := 10, delivery_date := 12,
    collection_address := "A", delivery_address := "B", pallets := 2, weight := 100,
    company := "Acme", request_status := "Bid(s) received" }

/-- `pendingBidOne` after an acceptance (bid 1 in `dbComplete`). -/
def acceptedBidOne : Bid := { pendingBidOne with bid_status := "Accepted" }

/-- A form input whose collection date lies in the past (relative to a
`today` of 10) and whose delivery date precedes the collection date. -/
def pastDateForm : RequestFormData :=
  { collection_date := 5, delivery_date := 3, collection_address := "A",
    delivery_address := "B", pallets := 1, weight := 100 }

/-- The inductive invariant maintained by every lifecycle operation: bid ids
are bounded by the next id and pairwise distinct; every request id carries at
most one Accepted bid; and every Complete request has exactly one
non-Rejected bid, which is Accepted. -/
structure Inv (db : DB) : Prop where
  bidIdsBound : ∀ b ∈ db.bids, b.id < db.nextBidId
  bidIdsDistinct : db.bids.Pairwise (fun x y => x.id ≠ y.id)
  accepted_le_one : ∀ rid : Nat, (acceptedBids db rid).length ≤ 1
  complete_active : ∀ r ∈ db.requests, r.request_status = "Complete" →
    ∃ b, activeBids db r.id = [b] ∧ b.bid_status = "Accepted"

section ListHelpers

variable {α : Type}

/-- `find?` commutes with a map that does not change the predicate's value. -/
theorem find?_map_pred_stable (g : α → α) (p : α → Bool) (hg : ∀ a, p (g a) = p a) :
    ∀ l : List α, (l.map g).find? p = (l.find? p).map g
  | [] => rfl
  | a :: l => by
    rw [List.map_cons, List.find?_cons, List.find?_cons, hg]
    cases h : p a
    · exact find?_map_pred_stable g p hg l
    · rfl

/-- In a list whose keys are pairwise distinct, two members with equal keys
are equal. -/
theorem eq_of_mem_of_pairwise_key {key : α → Nat} :
    ∀ {l : List α}, l.Pairwise (fun a b => key a ≠ key b) →
      ∀ {x y : α}, x ∈ l → y ∈ l → key x = key y → x = y
  | [], _, _, _, hx, _, _ => absurd hx (List.not_mem_nil _)
  | a :: l, hp, x, y, hx, hy, hxy => by
    rcases List.pairwise_cons.mp hp with ⟨ha, hl⟩
    rcases List.mem_cons.mp hx with hx | hx <;> rcases List.mem_cons.mp hy with hy | hy
    · exact hx.trans hy.symm
    · exact absurd (hx ▸ hxy) (ha y hy)
    · exact absurd (hy ▸ hxy).symm (ha x hx)
    · exact eq_of_mem_of_pairwise_key hl hx hy hxy

/-- With pairwise-distinct keys, a filter whose predicate pins the key down
to that of a member `x` returns exactly `[x]`. -/
theorem filter_eq_single_of_key {key : α → Nat} {p : α → Bool} {x : α} :
    ∀ {l : List α}, l.Pairwise (fun a b => key a ≠ key b) → x ∈ l → p x = true →
      (∀ a ∈ l, p a = true → key a = key x) → l.filter p = [x]
  | [], _, hx, _, _ => absurd hx (List.not_mem_nil _)
  | a :: l, hp, hx, hpx, hkey => by
    rcases List.pairwise_cons.mp hp with ⟨ha, hl⟩
    rcases List.mem_cons.mp hx with hx | hx
    · subst hx
      rw [List.filter_cons_of_pos hpx]
      have : l.filter p = [] := List.filter_eq_nil_iff.mpr (fun b hb hpb =>
        ha b hb (hkey b (List.mem_cons_of_mem _ hb) hpb).symm)
      rw [this]
    · have hpa : ¬ p a = true := fun hpa =>
        ha x hx (hkey a (List.mem_cons_self a l) hpa)
      rw [List.filter_cons_of_neg hpa]
      exact filter_eq_single_of_key hl hx hpx
        (fun b hb hpb => hkey b (List.mem_cons_of_mem _ hb) hpb)

/-- With pairwise-distinct keys, a filter whose predicate forces a fixed key
keeps at most one element. -/
theorem length_filter_le_one_key {key : α → Nat} {p : α → Bool} {k : Nat} :
    ∀ {l : List α}, l.Pairwise (fun a b => key a ≠ key b) →
      (∀ a ∈ l, p a = true → key a = k) → (l.filter p).length ≤ 1
  | [], _, _ => by simp
  | a :: l, hp, hkey => by
    rcases List.pairwise_cons.mp hp with ⟨ha, hl⟩
    by_cases hpa : p a = true
    · rw [List.filter_cons_of_pos hpa]
      have : l.filter p = [] := List.filter_eq_nil_iff.mpr (fun b hb hpb => by
        have hka : key a = k := hkey a (List.mem_cons_self a l) hpa
        have hkb : key b = k := hkey b (List.mem_cons_of_mem _ hb) hpb
        exact ha b hb (hka.trans hkb.symm))
      rw [this]
      simp
    · rw [List.filter_cons_of_neg hpa]
      exact length_filter_le_one_key hl
        (fun b hb hpb => hkey b (List.mem_cons_of_mem _ hb) hpb)

/-- Filtering with a pointwise-stronger predicate yields at most as many
elements. -/
theorem length_filter_le_of_imp {α : Type} {p q : α → Bool} :
    ∀ l : List α, (∀ a ∈ l, p a = true → q a = true) →
      (l.filter p).length ≤ (l.filter q).length
  | [], _ => Nat.le_refl 0
  | a :: l, h => by
    have ih := length_filter_le_of_imp l (fun x hx => h x (List.mem_cons_of_mem _ hx))
    by_cases hpa : p a = true
    · rw [List.filter_cons_of_pos hpa, List.filter_cons_of_pos (h a (List.mem_cons_self a l) hpa)]
      simpa using ih
    · rw [List.filter_cons_of_neg hpa]
      by_cases hqa : q a = true
      · rw [List.filter_cons_of_pos hqa]
        exact Nat.le_succ_of_le ih
      · rw [List.filter_cons_of_neg hqa]
        exact ih

end ListHelpers

section UpdateLemmas

/-- Updating bid statuses leaves request lookups unchanged. -/
theorem findRequest_updateBidStatusWhereId (db : DB) (i : Nat) (s : String) (r : Nat) :
    (updateBidStatusWhereId db i s).findRequest r = db.findRequest r := rfl

/-- Sibling-rejection leaves request lookups unchanged. -/
theorem findRequest_updateBidStatusWhereRequestAndNotId (db : DB) (rid i : Nat) (s : String)
    (r : Nat) :
    (updateBidStatusWhereRequestAndNotId db rid i s).findRequest r = db.findRequest r := rfl

/-- Updating request statuses leaves bid lookups unchanged. -/
theorem findBid_updateRequestStatusWhereId (db : DB) (rid : Nat) (s : String) (j : Nat) :
    (updateRequestStatusWhereId db rid s).findBid j = db.findBid j := rfl

/-- Effect of `UPDATE bid ... WHERE id = ?` on a bid lookup. -/
theorem findBid_updateBidStatusWhereId (db : DB) (i : Nat) (s : String) (j : Nat) :
    (updateBidStatusWhereId db i s).findBid j =
      (db.findBid j).map (fun b => if b.id = i then { b with bid_status := s } else b) := by
  unfold updateBidStatusWhereId DB.findBid
  exact find?_map_pred_stable _ _ (fun b => by by_cases h : b.id = i <;> simp [h]) _

/-- Effect of `UPDATE request ... WHERE id = ?` on a request lookup. -/
theorem findRequest_updateRequestStatusWhereId (db : DB) (rid : Nat) (s : String) (r : Nat) :
    (updateRequestStatusWhereId db rid s).findRequest r =
      (db.findRequest r).map (fun x => if x.id = rid then { x with request_status := s } else x) := by
  unfold updateRequestStatusWhereId DB.findRequest
  exact find?_map_pred_stable _ _ (fun x => by by_cases h : x.id = rid <;> simp [h]) _

/-- Effect of the sibling-rejection UPDATE on a bid lookup. -/
theorem findBid_updateBidStatusWhereRequestAndNotId (db : DB) (rid i : Nat) (s : String)
    (j : Nat) :
    (updateBidStatusWhereRequestAndNotId db rid i s).findBid j =
      (db.findBid j).map (fun b =>
        if b.request_id = rid ∧ ¬ b.id = i then { b with bid_status := s } else b) := by
  unfold updateBidStatusWhereRequestAndNotId DB.findBid
  exact find?_map_pred_stable _ _
    (fun b => by by_cases h : b.request_id = rid ∧ ¬ b.id = i <;> simp [h]) _

end UpdateLemmas

section ViewLemmas

/-- When the bid exists, `reject_bid_view` rejects it and, exactly when the
pre-mutation active-bid count is 1, reverts the request. -/
theorem reject_bid_view_found (db : DB) (bid_id : Nat) (b : Bid)
    (hb : db.findBid bid_id = some b) :
    reject_bid_view bid_id db =
      (if (activeBids db b.request_id).length = 1 then
         updateRequestStatusWhereId (updateBidStatusWhereId db bid_id "Rejected")
           b.request_id "Awaiting bids"
       else updateBidStatusWhereId db bid_id "Rejected",
       { flashes := [], action := Action.redirect "customer_routes.view_request" }) := by
  unfold reject_bid_view
  rw [hb]
  rfl

/-- When the bid exists, `accept_bid_view` completes the request, accepts the
bid and rejects the siblings. -/
theorem accept_bid_view_found (db : DB) (bid_id : Nat) (b : Bid)
    (hb : db.findBid bid_id = some b) :
    accept_bid_view bid_id db =
      (updateBidStatusWhereRequestAndNotId
        (updateBidStatusWhereId (updateRequestStatusWhereId db b.request_id "Complete")
          bid_id "Accepted")
        b.request_id bid_id "Rejected",
       { flashes := [], action := Action.redirect "customer_routes.view_request" }) := by
  unfold accept_bid_view
  rw [hb]
  rfl

/-- The `customer_only` gate passes callers of role Customer through. -/
theorem customer_gate_pos (caller : User) (view : DB → DB × Response) (db : DB)
    (h : caller.user_type = "Customer") : customer_only caller view db = view db := by
  unfold customer_only
  rw [if_pos h]

/-- The `supplier_only` gate passes callers of role Supplier through. -/
theorem supplier_gate_pos (caller : User) (view : DB → DB × Response) (db : DB)
    (h : caller.user_type = "Supplier") : supplier_only caller view db = view db := by
  unfold supplier_only
  rw [if_pos h]

/-- Replacing a bid's status with the value it already has is the identity. -/
theorem bid_set_status_eq_self (b : Bid) (s : String) (h : b.bid_status = s) :
    { b with bid_status := s } = b := by
  cases b
  simp_all

/-- The database state produced by a successful bid submission. -/
theorem submit_bid_view_result (db : DB) (id : Nat) (caller : User) (form : BidFormData) :
    (submit_bid_view id caller form db).1 =
      { users := db.users,
        requests := db.requests.map (fun r =>
          if r.id = id then { r with request_status := "Bid(s) received" } else r),
        bids := db.bids ++
          [{ id := db.nextBidId, request_id := id, created_by := caller.id,
             bid_amount := form.bid_amount, bid_status := defaultBidStatus }],
        nextRequestId := db.nextRequestId,
        nextBidId := db.nextBidId + 1 } := rfl

/-- The bid rows after `accept_bid` resolve to a single map over the originals. -/
theorem accept_result_bids (db : DB) (bid_id rid : Nat) :
    (updateBidStatusWhereRequestAndNotId
      (updateBidStatusWhereId (updateRequestStatusWhereId db rid "Complete") bid_id "Accepted")
      rid bid_id "Rejected").bids =
      db.bids.map (fun x =>
        if x.id = bid_id then { x with bid_status := "Accepted" }
        else if x.request_id = rid then { x with bid_status := "Rejected" } else x) := by
  simp only [updateBidStatusWhereRequestAndNotId, updateBidStatusWhereId,
    updateRequestStatusWhereId, List.map_map]
  refine List.map_congr_left (fun x _ => ?_)
  by_cases h1 : x.id = bid_id
  · simp [h1]
  · by_cases h2 : x.request_id = rid
    · simp [Function.comp, h1, h2]
    · simp [Function.comp, h1, h2]

end ViewLemmas

section InvariantPreservation

/-- `create_request` preserves the invariant. -/
theorem inv_create_request (db : DB) (caller : User) (form : RequestFormData) (h : Inv db) :
    Inv (create_request caller form db).1 := by
  rw [create_request]
  unfold customer_only
  by_cases hrole : caller.user_type = "Customer"
  · rw [if_pos hrole]
    unfold create_request_view
    refine ⟨h.bidIdsBound, h.bidIdsDistinct, h.accepted_le_one, ?_⟩
    intro r hr hc
    rcases List.mem_append.mp hr with hr | hr
    · exact h.complete_active r hr hc
    · rcases List.mem_singleton.mp hr with rfl
      simp [defaultRequestStatus] at hc
  · rw [if_neg hrole]
    exact h

/-- `update_request` preserves the invariant. -/
theorem inv_update_request (db : DB) (caller : User) (id : Nat) (form : RequestFormData)
    (h : Inv db) : Inv (update_request caller id form db).1 := by
  rw [update_request]
  unfold customer_only
  by_cases hrole : caller.user_type = "Customer"
  · rw [if_pos hrole]
    unfold update_request_view
    cases hfind : db.findRequest id with
    | none => exact h
    | some t =>
      refine ⟨h.bidIdsBound, h.bidIdsDistinct, h.accepted_le_one, ?_⟩
      intro r' hr' hc
      rcases List.mem_map.mp hr' with ⟨r, hr, rfl⟩
      by_cases hid : r.id = t.id
      · rw [if_pos hid] at hc ⊢
        exact hid ▸ h.complete_active r hr hc
      · rw [if_neg hid] at hc ⊢
        exact h.complete_active r hr hc
  · rw [if_neg hrole]
    exact h

/-- `remove_request` preserves the invariant. -/
theorem inv_remove_request (db : DB) (caller : User) (id : Nat) (h : Inv db) :
    Inv (remove_request caller id db).1 := by
  rw [remove_request]
  unfold customer_only
  by_cases hrole : caller.user_type = "Customer"
  · rw [if_pos hrole]
    unfold remove_request_view
    by_cases h1 : db.requestStatus id = none
    · rw [if_pos h1]
      exact h
    · rw [if_neg h1]
      by_cases h2 : db.requestStatus id = some "Complete"
      · rw [if_pos h2]
        exact h
      · rw [if_neg h2]
        refine ⟨h.bidIdsBound, h.bidIdsDistinct, h.accepted_le_one, ?_⟩
        intro r hr hc
        exact h.complete_active r (List.mem_filter.mp hr).1 hc
  · rw [if_neg hrole]
    exact h

/-- `submit_bid` preserves the invariant. -/
theorem inv_submit_bid (db : DB) (caller : User) (id : Nat) (form : BidFormData) (h : Inv db) :
    Inv (submit_bid caller id form db).1 := by
  rw [submit_bid]
  unfold supplier_only
  by_cases hrole : caller.user_type = "Supplier"
  case neg => rw [if_neg hrole]; exact h
  rw [if_pos hrole, submit_bid_view_result]
  constructor
  · intro b hb
    rcases List.mem_append.mp hb with hb | hb
    · exact Nat.lt_succ_of_lt (h.bidIdsBound b hb)
    · rcases List.mem_singleton.mp hb with rfl
      exact Nat.lt_succ_self _
  · refine List.pairwise_append.mpr ⟨h.bidIdsDistinct, List.pairwise_singleton _ _, ?_⟩
    intro a ha b hb
    rcases List.mem_singleton.mp hb with rfl
    exact Nat.ne_of_lt (h.bidIdsBound a ha)
  · intro rid
    have he : acceptedBids
        { users := db.users,
          requests := db.requests.map (fun r =>
            if r.id = id then { r with request_status := "Bid(s) received" } else r),
          bids := db.bids ++
            [{ id := db.nextBidId, request_id := id, created_by := caller.id,
               bid_amount := form.bid_amount, bid_status := defaultBidStatus }],
          nextRequestId := db.nextRequestId,
          nextBidId := db.nextBidId + 1 } rid = acceptedBids db rid := by
      unfold acceptedBids
      rw [List.filter_append]
      simp [defaultBidStatus]
    rw [he]
    exact h.accepted_le_one rid
  · intro r' hr' hc
    rcases List.mem_map.mp hr' with ⟨r, hr, rfl⟩
    by_cases hid : r.id = id
    · rw [if_pos hid] at hc
      simp at hc
    · rw [if_neg hid] at hc
      rcases h.complete_active r hr hc with ⟨b0, h0, hacc⟩
      refine ⟨b0, ?_, hacc⟩
      rw [if_neg hid]
      unfold activeBids at h0 ⊢
      rw [List.filter_append, h0]
      simp only [defaultBidStatus]
      have : ¬ ((id : Nat) = r.id) := fun hh => hid hh.symm
      simp [this]

/-- `accept_bid` preserves the invariant. -/
theorem inv_accept_bid (db : DB) (caller : User) (bid_id : Nat) (h : Inv db) :
    Inv (accept_bid caller bid_id db).1 := by
  rw [accept_bid]
  unfold customer_only
  by_cases hrole : caller.user_type = "Customer"
  case neg => rw [if_neg hrole]; exact h
  rw [if_pos hrole]
  cases hb : db.findBid bid_id with
  | none =>
    unfold accept_bid_view
    rw [hb]
    exact h
  | some b =>
    have hbid : b.id = bid_id := by simpa using List.find?_some hb
    have hbmem : b ∈ db.bids := List.mem_of_find?_eq_some hb
    have hX : (accept_bid_view bid_id db).1 =
        updateBidStatusWhereRequestAndNotId
          (updateBidStatusWhereId (updateRequestStatusWhereId db b.request_id "Complete")
            bid_id "Accepted") b.request_id bid_id "Rejected" := by
      rw [accept_bid_view_found db bid_id b hb]
    rw [hX]
    have hG := accept_result_bids db bid_id b.request_id
    set G : Bid → Bid := fun x =>
      if x.id = bid_id then { x with bid_status := "Accepted" }
      else if x.request_id = b.request_id then { x with bid_status := "Rejected" } else x
      with hGdef
    have hGid : ∀ x, (G x).id = x.id := by
      intro x
      rw [hGdef]
      by_cases h1 : x.id = bid_id
      · simp [h1]
      · by_cases h2 : x.request_id = b.request_id <;> simp [h1, h2]
    have hGreq : ∀ x, (G x).request_id = x.request_id := by
      intro x
      rw [hGdef]
      by_cases h1 : x.id = bid_id
      · simp [h1]
      · by_cases h2 : x.request_id = b.request_id <;> simp [h1, h2]
    have hnext : (updateBidStatusWhereRequestAndNotId
        (updateBidStatusWhereId (updateRequestStatusWhereId db b.request_id "Complete")
          bid_id "Accepted") b.request_id bid_id "Rejected").nextBidId = db.nextBidId := rfl
    have hreqs : (updateBidStatusWhereRequestAndNotId
        (updateBidStatusWhereId (updateRequestStatusWhereId db b.request_id "Complete")
          bid_id "Accepted") b.request_id bid_id "Rejected").requests =
        db.requests.map (fun r =>
          if r.id = b.request_id then { r with request_status := "Complete" } else r) := rfl
    constructor
    · rw [hnext]
      intro b' hb'
      rw [hG] at hb'
      rcases List.mem_map.mp hb' with ⟨x, hx, rfl⟩
      rw [hGid]
      exact h.bidIdsBound x hx
    · rw [hG]
      refine List.pairwise_map.mpr (h.bidIdsDistinct.imp ?_)
      intro a c hac
      rw [hGid, hGid]
      exact hac
    · intro rid'
      unfold acceptedBids
      rw [hG, List.filter_map, List.length_map]
      by_cases hr' : rid' = b.request_id
      · refine length_filter_le_one_key (k := bid_id) h.bidIdsDistinct (fun x hx hpx => ?_)
        by_contra hxid
        rw [Function.comp_apply, hGdef] at hpx
        by_cases h2 : x.request_id = b.request_id
        · simp [hxid, h2] at hpx
        · simp [hxid, h2, hr'] at hpx
      · have : db.bids.filter ((fun y => decide (y.request_id = rid' ∧ y.bid_status = "Accepted")) ∘ G) =
            db.bids.filter (fun y => decide (y.request_id = rid' ∧ y.bid_status = "Accepted")) := by
          refine List.filter_congr (fun x hx => ?_)
          rw [Function.comp_apply, hGdef]
          by_cases h1 : x.id = bid_id
          · have hxb : x = b := eq_of_mem_of_pairwise_key h.bidIdsDistinct hx hbmem
              (by rw [h1, hbid])
            subst hxb
            have : ¬ x.request_id = rid' := fun hh => hr' hh.symm
            simp [h1, this]
          · by_cases h2 : x.request_id = b.request_id
            · have hbr : ¬ b.request_id = rid' := fun hh => hr' hh.symm
              simp [h1, h2, hbr]
            · simp [h1, h2]
        rw [this]
        exact h.accepted_le_one rid'
    · rw [hreqs]
      intro r' hr' hc
      rcases List.mem_map.mp hr' with ⟨r, hr, rfl⟩
      by_cases hid : r.id = b.request_id
      · rw [if_pos hid]
        unfold activeBids
        rw [hG, List.filter_map]
        have hfil : db.bids.filter
            ((fun y => decide (¬ y.bid_status = "Rejected" ∧ y.request_id =
              ({ r with request_status := "Complete" } : Request).id)) ∘ G) = [b] := by
          refine filter_eq_single_of_key h.bidIdsDistinct hbmem ?_ ?_
          · rw [Function.comp_apply, hGdef]
            simp [hbid, hid]
          · intro x hx hpx
            rw [Function.comp_apply, hGdef] at hpx
            by_contra hxid
            rw [hbid] at hxid
            by_cases h2 : x.request_id = b.request_id
            · simp [hxid, h2] at hpx
            · simp [hxid, h2, hid] at hpx
        rw [hfil]
        refine ⟨G b, rfl, ?_⟩
        rw [hGdef]
        simp [hbid]
      · rw [if_neg hid] at hc ⊢
        rcases h.complete_active r hr hc with ⟨b0, h0, hacc⟩
        unfold activeBids at h0 ⊢
        rw [hG, List.filter_map]
        have hfil : db.bids.filter
            ((fun y => decide (¬ y.bid_status = "Rejected" ∧ y.request_id = r.id)) ∘ G) =
            db.bids.filter (fun y => decide (¬ y.bid_status = "Rejected" ∧ y.request_id = r.id)) := by
          refine List.filter_congr (fun x hx => ?_)
          rw [Function.comp_apply, hGdef]
          by_cases h1 : x.id = bid_id
          · have hxb : x = b := eq_of_mem_of_pairwise_key h.bidIdsDistinct hx hbmem
              (by rw [h1, hbid])
            subst hxb
            have : ¬ x.request_id = r.id := fun hh => hid (hh.symm)
            simp [h1, this]
          · by_cases h2 : x.request_id = b.request_id
            · have hbr : ¬ b.request_id = r.id := fun hh => hid hh.symm
              simp [h1, h2, hbr]
            · simp [h1, h2]
        rw [hfil, h0]
        have hb0 : b0 ∈ db.bids.filter
            (fun y => decide (¬ y.bid_status = "Rejected" ∧ y.request_id = r.id)) := by
          rw [h0]
          exact List.mem_singleton_self b0
        rcases List.mem_filter.mp hb0 with ⟨hb0db, hb0q⟩
        simp only [decide_eq_true_eq] at hb0q
        have hGb0 : G b0 = b0 := by
          rw [hGdef]
          have h1 : ¬ b0.id = bid_id := by
            intro hh
            have hb0b : b0 = b := eq_of_mem_of_pairwise_key h.bidIdsDistinct hb0db hbmem
              (by rw [hh, hbid])
            rw [hb0b] at hb0q
            exact hid hb0q.2.symm
          have h2 : ¬ b0.request_id = b.request_id := by
            rw [hb0q.2]
            exact fun hh => hid hh
          simp [h1, h2]
        rw [List.map_singleton, hGb0]
        exact ⟨b0, rfl, hacc⟩

/-- `reject_bid` preserves the invariant. -/
theorem inv_reject_bid (db : DB) (caller : User) (bid_id : Nat) (h : Inv db) :
    Inv (reject_bid caller bid_id db).1 := by
  rw [reject_bid]
  unfold customer_only
  by_cases hrole : caller.user_type = "Customer"
  case neg => rw [if_neg hrole]; exact h
  rw [if_pos hrole]
  cases hb : db.findBid bid_id with
  | none =>
    unfold reject_bid_view
    rw [hb]
    exact h
  | some b =>
    have hbid : b.id = bid_id := by simpa using List.find?_some hb
    have hbmem : b ∈ db.bids := List.mem_of_find?_eq_some hb
    set g : Bid → Bid := fun x =>
      if x.id = bid_id then { x with bid_status := "Rejected" } else x with hgdef
    have hgid : ∀ x, (g x).id = x.id := by
      intro x
      rw [hgdef]
      by_cases h1 : x.id = bid_id <;> simp [h1]
    have hBound : ∀ b' ∈ db.bids.map g, b'.id < db.nextBidId := by
      intro b' hb'
      rcases List.mem_map.mp hb' with ⟨x, hx, rfl⟩
      rw [hgid]
      exact h.bidIdsBound x hx
    have hDistinct : (db.bids.map g).Pairwise (fun x y => x.id ≠ y.id) :=
      List.pairwise_map.mpr (h.bidIdsDistinct.imp (fun hac => by rw [hgid, hgid]; exact hac))
    have hAccept : ∀ rid' : Nat, ((db.bids.map g).filter
        (fun y => decide (y.request_id = rid' ∧ y.bid_status = "Accepted"))).length ≤ 1 := by
      intro rid'
      rw [List.filter_map, List.length_map]
      refine Nat.le_trans (length_filter_le_of_imp db.bids (fun x hx hpx => ?_))
        (h.accepted_le_one rid')
      rw [Function.comp_apply, hgdef] at hpx
      by_cases h1 : x.id = bid_id
      · simp [h1] at hpx
      · simpa [h1] using hpx
    have hActive : ∀ rid'' : Nat, ¬ rid'' = b.request_id →
        (db.bids.map g).filter
          (fun y => decide (¬ y.bid_status = "Rejected" ∧ y.request_id = rid'')) =
        activeBids db rid'' := by
      intro rid'' hne
      rw [List.filter_map]
      have hfil : db.bids.filter ((fun y =>
          decide (¬ y.bid_status = "Rejected" ∧ y.request_id = rid'')) ∘ g) =
          activeBids db rid'' := by
        refine List.filter_congr (fun x hx => ?_)
        rw [Function.comp_apply, hgdef]
        by_cases h1 : x.id = bid_id
        · have hxb : x = b := eq_of_mem_of_pairwise_key h.bidIdsDistinct hx hbmem
            (by rw [h1, hbid])
          subst hxb
          have hxr : ¬ x.request_id = rid'' := fun hh => hne hh.symm
          simp [h1, hxr]
        · simp [h1]
      rw [hfil]
      conv_rhs => rw [← List.map_id (activeBids db rid'')]
      refine List.map_congr_left (fun y hy => ?_)
      rcases List.mem_filter.mp hy with ⟨hydb, hyq⟩
      simp only [decide_eq_true_eq] at hyq
      have h1 : ¬ y.id = bid_id := by
        intro hh
        have hyb : y = b := eq_of_mem_of_pairwise_key h.bidIdsDistinct hydb hbmem
          (by rw [hh, hbid])
        rw [hyb] at hyq
        exact hne hyq.2.symm
      simp [hgdef, h1]
    have hX : (reject_bid_view bid_id db).1 =
        if (activeBids db b.request_id).length = 1 then
          updateRequestStatusWhereId (updateBidStatusWhereId db bid_id "Rejected")
            b.request_id "Awaiting bids"
        else updateBidStatusWhereId db bid_id "Rejected" := by
      rw [reject_bid_view_found db bid_id b hb]
    rw [hX]
    by_cases hcnt : (activeBids db b.request_id).length = 1
    · rw [if_pos hcnt]
      refine ⟨hBound, hDistinct, hAccept, ?_⟩
      intro r' hr' hc
      rcases List.mem_map.mp hr' with ⟨r, hr, rfl⟩
      by_cases hid : r.id = b.request_id
      · rw [if_pos hid] at hc
        simp at hc
      · rw [if_neg hid] at hc ⊢
        rcases h.complete_active r hr hc with ⟨b0, h0, hacc⟩
        refine ⟨b0, ?_, hacc⟩
        have e1 : activeBids (updateRequestStatusWhereId
            (updateBidStatusWhereId db bid_id "Rejected") b.request_id "Awaiting bids") r.id =
            activeBids db r.id := by
          unfold activeBids updateRequestStatusWhereId updateBidStatusWhereId
          exact hActive r.id hid
        exact e1.trans h0
    · rw [if_neg hcnt]
      refine ⟨hBound, hDistinct, hAccept, ?_⟩
      intro r' hr' hc
      rcases h.complete_active r' hr' hc with ⟨b0, h0, hacc⟩
      by_cases hid : r'.id = b.request_id
      · exfalso
        rw [hid] at h0
        rw [h0] at hcnt
        simp at hcnt
      · refine ⟨b0, ?_, hacc⟩
        have e1 : activeBids (updateBidStatusWhereId db bid_id "Rejected") r'.id =
            activeBids db r'.id := by
          unfold activeBids updateBidStatusWhereId
          exact hActive r'.id hid
        exact e1.trans h0

/-- The empty database satisfies the invariant. -/
theorem inv_empty : Inv DB.empty :=
  ⟨fun b hb => absurd hb (List.not_mem_nil b),
   List.Pairwise.nil,
   fun rid => by simp [acceptedBids, DB.empty],
   fun r hr => absurd hr (List.not_mem_nil r)⟩

/-- Every lifecycle operation preserves the invariant. -/
theorem inv_applyOp (db : DB) (op : Op) (h : Inv db) : Inv (applyOp db op) := by
  cases op with
  | createRequest caller form => exact inv_create_request db caller form h
  | updateRequest caller id form => exact inv_update_request db caller id form h
  | cancelRequest caller id => exact inv_remove_request db caller id h
  | submitBid caller id form => exact inv_submit_bid db caller id form h
  | acceptBid caller bid_id => exact inv_accept_bid db caller bid_id h
  | rejectBid caller bid_id => exact inv_reject_bid db caller bid_id h

/-- Every reachable state satisfies the invariant. -/
theorem inv_reachable (db : DB) (h : Reachable db) : Inv db := by
  induction h with
  | init => exact inv_empty
  | step op _ ih => exact inv_applyOp _ op ih

end InvariantPreservation

section ClaimTheorems

/-- C1: for every request R and every bid B on R, `reject_bid B` decides the
reversion to "Awaiting bids" from the count of non-Rejected bids on R taken
before B's own status is mutated: if that pre-count equals 1, afterwards B is
Rejected and R is "Awaiting bids"; if the pre-count exceeds 1, afterwards B
is Rejected and R stays at "Bid(s) received". -/
theorem reject_bid_pre_count_rederivation (db : DB) (caller : User) (bid_id : Nat)
    (b : Bid) (r : Request)
    (hrole : caller.user_type = "Customer")
    (hb : db.findBid bid_id = some b)
    (hr : db.findRequest b.request_id = some r) :
    ((activeBids db b.request_id).length = 1 →
      ((reject_bid caller bid_id db).1.bidStatus bid_id = some "Rejected" ∧
       (reject_bid caller bid_id db).1.requestStatus b.request_id = some "Awaiting bids")) ∧
    (1 < (activeBids db b.request_id).length → r.request_status = "Bid(s) received" →
      ((reject_bid caller bid_id db).1.bidStatus bid_id = some "Rejected" ∧
       (reject_bid caller bid_id db).1.requestStatus b.request_id = some "Bid(s) received")) := by
  have hbid : b.id = bid_id := by simpa using List.find?_some hb
  have hrid : r.id = b.request_id := by simpa using List.find?_some hr
  rw [reject_bid, customer_gate_pos _ _ _ hrole, reject_bid_view_found db bid_id b hb]
  constructor
  · intro h1
    rw [if_pos h1]
    constructor
    · rw [DB.bidStatus, findBid_updateRequestStatusWhereId, findBid_updateBidStatusWhereId, hb]
      simp [hbid]
    · rw [DB.requestStatus, findRequest_updateRequestStatusWhereId,
        findRequest_updateBidStatusWhereId, hr]
      simp [hrid]
  · intro h1 hstat
    rw [if_neg (by omega)]
    constructor
    · rw [DB.bidStatus, findBid_updateBidStatusWhereId, hb]
      simp [hbid]
    · rw [DB.requestStatus, findRequest_updateBidStatusWhereId, hr]
      simp [hstat]

/-- C1 witness: with one Pending bid the request reverts to "Awaiting bids";
with two Pending bids rejecting one keeps "Bid(s) received". -/
theorem reject_bid_pre_count_rederivation_witness :
    ((activeBids dbSinglePending 1).length = 1 ∧
      ((reject_bid custA 1 dbSinglePending).1.bidStatus 1 = some "Rejected" ∧
       (reject_bid custA 1 dbSinglePending).1.requestStatus 1 = some "Awaiting bids")) ∧
    (1 < (activeBids dbTwoPending 1).length ∧
      ((reject_bid custA 1 dbTwoPending).1.bidStatus 1 = some "Rejected" ∧
       (reject_bid custA 1 dbTwoPending).1.requestStatus 1 = some "Bid(s) received")) :=
  ⟨⟨by decide,
    (reject_bid_pre_count_rederivation dbSinglePending custA 1 pendingBidOne
      { requestOneBidsReceived with request_status := "Bid(s) received" }
      (by decide) (by decide) (by decide)).1 (by decide)⟩,
   ⟨by decide,
    (reject_bid_pre_count_rederivation dbTwoPending custA 1 pendingBidOne
      requestOneBidsReceived (by decide) (by decide) (by decide)).2
      (by decide) (by decide)⟩⟩

/-- C2: for every bid B resolving to an existing request R, `accept_bid B`
sets R Complete, B Accepted and every other bid on R Rejected, and touches
no other request row and no bid of another request. -/
theorem accept_bid_resolves_request (db : DB) (caller : User) (bid_id : Nat) (b : Bid)
    (r : Request)
    (hrole : caller.user_type = "Customer")
    (hb : db.findBid bid_id = some b)
    (hr : db.findRequest b.request_id = some r) :
    (accept_bid caller bid_id db).1.requestStatus b.request_id = some "Complete" ∧
    (accept_bid caller bid_id db).1.bidStatus bid_id = some "Accepted" ∧
    (∀ b' ∈ (accept_bid caller bid_id db).1.bids,
       b'.request_id = b.request_id → ¬ b'.id = bid_id → b'.bid_status = "Rejected") ∧
    (∀ r' ∈ db.requests, ¬ r'.id = b.request_id →
       r' ∈ (accept_bid caller bid_id db).1.requests) ∧
    (∀ b' ∈ db.bids, ¬ b'.request_id = b.request_id → ¬ b'.id = bid_id →
       b' ∈ (accept_bid caller bid_id db).1.bids) := by
  have hbid : b.id = bid_id := by simpa using List.find?_some hb
  have hrid : r.id = b.request_id := by simpa using List.find?_some hr
  rw [accept_bid, customer_gate_pos _ _ _ hrole, accept_bid_view_found db bid_id b hb]
  refine ⟨?_, ?_, ?_, ?_, ?_⟩
  · rw [DB.requestStatus, findRequest_updateBidStatusWhereRequestAndNotId,
      findRequest_updateBidStatusWhereId, findRequest_updateRequestStatusWhereId, hr]
    simp [hrid]
  · rw [DB.bidStatus, findBid_updateBidStatusWhereRequestAndNotId,
      findBid_updateBidStatusWhereId, findBid_updateRequestStatusWhereId, hb]
    simp [hbid]
  · intro b' hmem hreq hid
    simp only [updateBidStatusWhereRequestAndNotId, updateBidStatusWhereId,
      updateRequestStatusWhereId, List.mem_map] at hmem
    rcases hmem with ⟨x, ⟨y, hy, rfl⟩, rfl⟩
    by_cases h1 : y.id = bid_id
    · exfalso
      simp [h1] at hid
    · by_cases h2 : y.request_id = b.request_id
      · simp [h1, h2]
      · exfalso
        simp [h1, h2] at hreq
  · intro r' hmem hne
    simp only [updateBidStatusWhereRequestAndNotId, updateBidStatusWhereId,
      updateRequestStatusWhereId]
    exact List.mem_map.mpr ⟨r', hmem, by simp [hne]⟩
  · intro b' hmem hreq hid
    simp only [updateBidStatusWhereRequestAndNotId, updateBidStatusWhereId,
      updateRequestStatusWhereId]
    exact List.mem_map.mpr ⟨b', List.mem_map.mpr ⟨b', hmem, by simp [hid]⟩, by simp [hreq]⟩

/-- C2 witness: with Pending bids 1 and 2 on request 1, accepting bid 1
yields bid 1 Accepted, bid 2 Rejected, request 1 Complete. -/
theorem accept_bid_resolves_request_witness :
    (accept_bid custA 1 dbTwoPending).1.requestStatus 1 = some "Complete" ∧
    (accept_bid custA 1 dbTwoPending).1.bidStatus 1 = some "Accepted" ∧
    (accept_bid custA 1 dbTwoPending).1.bidStatus 2 = some "Rejected" := by
  have h := accept_bid_resolves_request dbTwoPending custA 1 pendingBidOne
    requestOneBidsReceived (by decide) (by decide) (by decide)
  exact ⟨h.1, h.2.1, by decide⟩

/-- C10: when a request has exactly one non-Rejected bid, `reject_bid` on a
bid of that request that is already Rejected still reverts the request to
"Awaiting bids" — the pre-mutation count equals 1 regardless of whether the
target bid was among the counted active bids — while the one active bid
stays active. -/
theorem reject_rejected_bid_still_reverts (db : DB) (caller : User) (bid_id : Nat)
    (b : Bid) (r : Request)
    (hrole : caller.user_type = "Customer")
    (hu : db.bids.Pairwise (fun x y => x.id ≠ y.id))
    (hb : db.findBid bid_id = some b)
    (hr : db.findRequest b.request_id = some r)
    (hstatus : b.bid_status = "Rejected")
    (hcount : (activeBids db b.request_id).length = 1) :
    (reject_bid caller bid_id db).1.requestStatus b.request_id = some "Awaiting bids" ∧
    activeBids (reject_bid caller bid_id db).1 b.request_id = activeBids db b.request_id := by
  have hbid : b.id = bid_id := by simpa using List.find?_some hb
  have hrid : r.id = b.request_id := by simpa using List.find?_some hr
  have hmem : b ∈ db.bids := List.mem_of_find?_eq_some hb
  rw [reject_bid, customer_gate_pos _ _ _ hrole, reject_bid_view_found db bid_id b hb]
  rw [if_pos hcount]
  have hbids : (updateBidStatusWhereId db bid_id "Rejected").bids = db.bids := by
    simp only [updateBidStatusWhereId]
    conv_rhs => rw [← List.map_id db.bids]
    refine List.map_congr_left (fun x hx => ?_)
    by_cases h1 : x.id = bid_id
    · have : x = b := eq_of_mem_of_pairwise_key hu hx hmem (h1.trans hbid.symm)
      subst this
      rw [if_pos h1]
      exact bid_set_status_eq_self x "Rejected" hstatus
    · rw [if_neg h1]
      rfl
  constructor
  · rw [DB.requestStatus, findRequest_updateRequestStatusWhereId,
      findRequest_updateBidStatusWhereId, hr]
    simp [hrid]
  · rw [activeBids, activeBids]
    show ((updateBidStatusWhereId db bid_id "Rejected").bids.filter _) = _
    rw [hbids]

/-- C10 witness: request 1 holds Rejected bid 1 and Pending bid 2; rejecting
the already-Rejected bid 1 reverts the request to "Awaiting bids" while bid 2
remains the active bid. -/
theorem reject_rejected_bid_still_reverts_witness :
    (reject_bid custA 1 dbOneRejectedOneActive).1.requestStatus 1 = some "Awaiting bids" ∧
    activeBids (reject_bid custA 1 dbOneRejectedOneActive).1 1 =
      activeBids dbOneRejectedOneActive 1 :=
  reject_rejected_bid_still_reverts dbOneRejectedOneActive custA 1 rejectedBidOne
    requestOneBidsReceived (by decide) (by decide) (by decide) (by decide) (by decide)
    (by decide)

/-- C5: `remove_request` flashes an error and deletes nothing when the
request is Complete, flashes a not-found error when the id does not exist,
and otherwise deletes the request row (other rows surviving). -/
theorem remove_request_behaviour (db : DB) (caller : User) (id : Nat)
    (hrole : caller.user_type = "Customer") :
    (db.findRequest id = none →
      remove_request caller id db =
        (db, { flashes := [("Request does not exist. No request to remove.", "error")],
               action := Action.redirect "customer_routes.customer_requests" })) ∧
    (∀ r, db.findRequest id = some r → r.request_status = "Complete" →
      remove_request caller id db =
        (db, { flashes := [("Request is complete. Unable to remove.", "error")],
               action := Action.returnedNone })) ∧
    (∀ r, db.findRequest id = some r → ¬ r.request_status = "Complete" →
      ((remove_request caller id db).1.findRequest id = none ∧
       (∀ x ∈ db.requests, ¬ x.id = id → x ∈ (remove_request caller id db).1.requests) ∧
       (remove_request caller id db).1.bids = db.bids ∧
       (remove_request caller id db).2 =
         { flashes := [("Request deleted successfully.", "success")],
           action := Action.redirect "customer_routes.customer_requests" })) := by
  rw [remove_request, customer_gate_pos _ _ _ hrole]
  refine ⟨?_, ?_, ?_⟩
  · intro h
    unfold remove_request_view
    rw [DB.requestStatus, h]
    rfl
  · intro r h hc
    unfold remove_request_view
    rw [DB.requestStatus, h]
    simp [hc]
  · intro r h hc
    unfold remove_request_view
    rw [DB.requestStatus, h]
    rw [if_neg (by simp), if_neg (by simp [hc])]
    refine ⟨?_, ?_, rfl, rfl⟩
    · refine List.find?_eq_none.mpr (fun x hx => ?_)
      rcases List.mem_filter.mp hx with ⟨_, hxid⟩
      simpa using hxid
    · intro x hx hne
      exact List.mem_filter.mpr ⟨hx, by simpa using hne⟩

/-- C5 witness: removing a missing id flashes not-found; removing the
Complete request 1 flashes an error without deleting; removing the live
request 1 deletes its row. -/
theorem remove_request_behaviour_witness :
    (remove_request custA 99 dbComplete =
      (dbComplete, { flashes := [("Request does not exist. No request to remove.", "error")],
                     action := Action.redirect "customer_routes.customer_requests" })) ∧
    (remove_request custA 1 dbComplete =
      (dbComplete, { flashes := [("Request is complete. Unable to remove.", "error")],
                     action := Action.returnedNone })) ∧
    (remove_request custA 1 dbSinglePending).1.findRequest 1 = none :=
  ⟨(remove_request_behaviour dbComplete custA 99 (by decide)).1 (by decide),
   (remove_request_behaviour dbComplete custA 1 (by decide)).2.1
     { requestOneBidsReceived with request_status := "Complete" } (by decide) (by decide),
   ((remove_request_behaviour dbSinglePending custA 1 (by decide)).2.2
     requestOneBidsReceived (by decide) (by decide)).1⟩

/-- C6 counterexample: a Customer of company Globex operates on a bid of a
request owned by Acme; `accept_bid` is not refused — it completes the
request and redirects — and `reject_bid` likewise mutates the bid. -/
theorem cross_company_accept_succeeds :
    ¬ custOther.company = requestOneBidsReceived.company ∧
    dbTwoPending.findRequest 1 = some requestOneBidsReceived ∧
    (accept_bid custOther 1 dbTwoPending).1.requestStatus 1 = some "Complete" ∧
    (accept_bid custOther 1 dbTwoPending).2 =
      { flashes := [], action := Action.redirect "customer_routes.view_request" } ∧
    (reject_bid custOther 1 dbTwoPending).1.bidStatus 1 = some "Rejected" := by decide

/-- C6 (amended): `accept_bid` and `reject_bid` are gated only on the
caller's role: a caller whose user_type is not Customer is redirected to the
login page with no mutation; the caller's company is never compared with the
owning company, so the outcome is identical for Customer callers of any
company. -/
theorem accept_reject_role_only_gate (db : DB) (caller c1 c2 : User) (bid_id : Nat)
    (hrole : ¬ caller.user_type = "Customer")
    (h1 : c1.user_type = "Customer") (h2 : c2.user_type = "Customer") :
    accept_bid caller bid_id db = (db, loginRedirect) ∧
    reject_bid caller bid_id db = (db, loginRedirect) ∧
    accept_bid c1 bid_id db = accept_bid c2 bid_id db ∧
    reject_bid c1 bid_id db = reject_bid c2 bid_id db := by
  refine ⟨?_, ?_, ?_, ?_⟩
  · rw [accept_bid]
    unfold customer_only
    rw [if_neg hrole]
  · rw [reject_bid]
    unfold customer_only
    rw [if_neg hrole]
  · rw [accept_bid, accept_bid, customer_gate_pos _ _ _ h1, customer_gate_pos _ _ _ h2]
  · rw [reject_bid, reject_bid, customer_gate_pos _ _ _ h1, customer_gate_pos _ _ _ h2]

/-- C6 amended-claim witness at concrete inputs. -/
theorem accept_reject_role_only_gate_witness :
    accept_bid suppB 1 dbTwoPending = (dbTwoPending, loginRedirect) ∧
    reject_bid suppB 1 dbTwoPending = (dbTwoPending, loginRedirect) ∧
    accept_bid custA 1 dbTwoPending = accept_bid custOther 1 dbTwoPending ∧
    reject_bid custA 1 dbTwoPending = reject_bid custOther 1 dbTwoPending :=
  accept_reject_role_only_gate dbTwoPending suppB custA custOther 1 (by decide) (by decide)
    (by decide)

/-- C7 counterexample: bid 99 does not exist; `accept_bid` returns None with
no flashed message (not a NotFound message), and `reject_bid` dies with an
unhandled TypeError (again no user-visible message); no row changes. -/
theorem missing_bid_no_user_message :
    dbTwoPending.findBid 99 = none ∧
    accept_bid custA 99 dbTwoPending =
      (dbTwoPending, { flashes := [], action := Action.returnedNone }) ∧
    reject_bid custA 99 dbTwoPending =
      (dbTwoPending,
       { flashes := [],
         action := Action.pythonError "TypeError: NoneType object is not subscriptable" }) := by
  decide

/-- C7 (amended): when bid_id resolves to no bid, neither operation mutates
any row; `accept_bid` falls through returning None with no flashed message,
and `reject_bid` raises an unhandled TypeError before any mutation, also
with no flashed message — neither surfaces a NotFound error to the user. -/
theorem missing_bid_behaviour (db : DB) (caller : User) (bid_id : Nat)
    (hrole : caller.user_type = "Customer")
    (hmiss : db.findBid bid_id = none) :
    accept_bid caller bid_id db = (db, { flashes := [], action := Action.returnedNone }) ∧
    reject_bid caller bid_id db =
      (db, { flashes := [],
             action := Action.pythonError "TypeError: NoneType object is not subscriptable" }) := by
  constructor
  · rw [accept_bid, customer_gate_pos _ _ _ hrole]
    unfold accept_bid_view
    rw [hmiss]
    rfl
  · rw [reject_bid, customer_gate_pos _ _ _ hrole]
    unfold reject_bid_view
    rw [hmiss]
    rfl

/-- C7 amended-claim witness at concrete inputs. -/
theorem missing_bid_behaviour_witness :
    accept_bid custA 42 dbSinglePending =
      (dbSinglePending, { flashes := [], action := Action.returnedNone }) ∧
    reject_bid custA 42 dbSinglePending =
      (dbSinglePending,
       { flashes := [],
         action := Action.pythonError "TypeError: NoneType object is not subscriptable" }) :=
  missing_bid_behaviour dbSinglePending custA 42 (by decide) (by decide)

/-- C8 (code bug): with today = 10, `pastDateForm` trips both form
validators, yet `create_request` inserts the row anyway — the POST handler
never invokes the form's validation, so nothing is rejected before the
INSERT. -/
theorem create_request_skips_validation :
    validate_collectionBy 10 pastDateForm.collection_date = true ∧
    validate_deliveryBy pastDateForm.collection_date pastDateForm.delivery_date = true ∧
    (create_request custA pastDateForm DB.empty).1.requests =
      [{ id := 1, created_by := custA.id, collection_date := 5, delivery_date := 3,
         collection_address := "A", delivery_address := "B", pallets := 1, weight := 100,
         company := custA.company, request_status := "Awaiting bids" }] ∧
    (create_request custA pastDateForm DB.empty).2 =
      { flashes := [], action := Action.redirect "customer_routes.customer_requests" } := by
  decide

/-- Membership in the first supplier dashboard partition. -/
theorem mem_requests_bid_fst (db : DB) (c : String) (r : Request) :
    r ∈ (requests_bid db c).map Prod.fst ↔
      r ∈ db.requests ∧ ¬ r.request_status = "Complete" ∧
        ∃ b ∈ db.bids, b.request_id = r.id ∧ userCompany db b.created_by = some c := by
  unfold requests_bid
  constructor
  · intro h
    rcases List.mem_map.mp h with ⟨rb, hrb, rfl⟩
    rcases List.mem_filter.mp hrb with ⟨hL, hP⟩
    rcases List.mem_flatMap.mp hL with ⟨r', hr', hf⟩
    rcases List.mem_map.mp hf with ⟨b, hbmem, heq⟩
    rcases List.mem_filter.mp hbmem with ⟨hbdb, hbreq⟩
    simp only [decide_eq_true_eq] at hP hbreq
    cases heq
    exact ⟨hr', hP.2, b, hbdb, hbreq, hP.1⟩
  · rintro ⟨hr, hst, b, hbdb, hbreq, hbc⟩
    refine List.mem_map.mpr ⟨(r, b), List.mem_filter.mpr ⟨?_, ?_⟩, rfl⟩
    · exact List.mem_flatMap.mpr ⟨r, hr, List.mem_map.mpr
        ⟨b, List.mem_filter.mpr ⟨hbdb, by simp [hbreq]⟩, rfl⟩⟩
    · simp [hbc, hst]

/-- Membership in the won-requests supplier dashboard partition. -/
theorem mem_requests_bid_won_fst (db : DB) (c : String) (r : Request) :
    r ∈ (requests_bid_won db c).map Prod.fst ↔
      r ∈ db.requests ∧ r.request_status = "Complete" ∧
        ∃ b ∈ db.bids, b.request_id = r.id ∧ ¬ b.bid_status = "Rejected" ∧
          userCompany db b.created_by = some c := by
  unfold requests_bid_won
  constructor
  · intro h
    rcases List.mem_map.mp h with ⟨rb, hrb, rfl⟩
    rcases List.mem_filter.mp hrb with ⟨hL, hP⟩
    rcases List.mem_flatMap.mp hL with ⟨r', hr', hf⟩
    rcases List.mem_map.mp hf with ⟨b, hbmem, heq⟩
    rcases List.mem_filter.mp hbmem with ⟨hbdb, hbreq⟩
    simp only [decide_eq_true_eq] at hP hbreq
    cases heq
    exact ⟨hr', hP.2.2, b, hbdb, hbreq, hP.1, hP.2.1⟩
  · rintro ⟨hr, hst, b, hbdb, hbreq, hbs, hbc⟩
    refine List.mem_map.mpr ⟨(r, b), List.mem_filter.mpr ⟨?_, ?_⟩, rfl⟩
    · exact List.mem_flatMap.mpr ⟨r, hr, List.mem_map.mpr
        ⟨b, List.mem_filter.mpr ⟨hbdb, by simp [hbreq]⟩, rfl⟩⟩
    · simp [hbc, hst, hbs]

/-- Membership in the live-requests supplier dashboard partition. -/
theorem mem_live_requests_not_bid (db : DB) (c : String) (r : Request) :
    r ∈ live_requests_not_bid db c ↔
      r ∈ db.requests ∧ ¬ r.request_status = "Complete" ∧
        ∀ b ∈ db.bids, b.request_id = r.id → ¬ userCompany db b.created_by = some c := by
  unfold live_requests_not_bid
  constructor
  · intro h
    rcases List.mem_map.mp h with ⟨rc, hrc, rfl⟩
    rcases List.mem_filter.mp hrc with ⟨hL, hP⟩
    rcases List.mem_flatMap.mp hL with ⟨r', hr', hf⟩
    simp only [decide_eq_true_eq] at hP
    cases hfil : (companyBids db c).filter (fun b => b.request_id = r'.id) with
    | nil =>
      rw [hfil] at hf
      simp only [List.mem_singleton, Prod.mk.injEq] at hf
      rcases hf with ⟨rfl, _⟩
      refine ⟨hr', hP.2, fun b hb hbreq hbc => ?_⟩
      have : b ∈ (companyBids db c).filter (fun b => b.request_id = r'.id) :=
        List.mem_filter.mpr ⟨List.mem_filter.mpr ⟨hb, by simp [hbc]⟩, by simp [hbreq]⟩
      rw [hfil] at this
      exact absurd this (List.not_mem_nil b)
    | cons a l =>
      rw [hfil] at hf
      rcases List.mem_map.mp hf with ⟨x, hx, heq⟩
      rw [← heq] at hP
      simp at hP
  · rintro ⟨hr, hst, hnone⟩
    have hfil : (companyBids db c).filter (fun b => b.request_id = r.id) = [] := by
      refine List.filter_eq_nil_iff.mpr (fun b hb hbreq => ?_)
      rcases List.mem_filter.mp hb with ⟨hbdb, hbc⟩
      simp only [decide_eq_true_eq] at hbc hbreq
      exact hnone b hbdb hbreq hbc
    refine List.mem_map.mpr ⟨(r, none), List.mem_filter.mpr ⟨?_, ?_⟩, rfl⟩
    · refine List.mem_flatMap.mpr ⟨r, hr, ?_⟩
      rw [hfil]
      simp
    · simp [hst]

/-- C9: the three `supplier_requests` partitions contain exactly the
non-Complete requests with no bid from the company, the non-Complete
requests with at least one bid from the company, and the Complete requests
on which the company holds a non-Rejected bid; they are pairwise disjoint. -/
theorem supplier_partitions_characterization (db : DB) (c : String) (r : Request) :
    (r ∈ live_requests_not_bid db c ↔
      r ∈ db.requests ∧ ¬ r.request_status = "Complete" ∧
        ∀ b ∈ db.bids, b.request_id = r.id → ¬ userCompany db b.created_by = some c) ∧
    (r ∈ (requests_bid db c).map Prod.fst ↔
      r ∈ db.requests ∧ ¬ r.request_status = "Complete" ∧
        ∃ b ∈ db.bids, b.request_id = r.id ∧ userCompany db b.created_by = some c) ∧
    (r ∈ (requests_bid_won db c).map Prod.fst ↔
      r ∈ db.requests ∧ r.request_status = "Complete" ∧
        ∃ b ∈ db.bids, b.request_id = r.id ∧ ¬ b.bid_status = "Rejected" ∧
          userCompany db b.created_by = some c) ∧
    ¬ (r ∈ live_requests_not_bid db c ∧ r ∈ (requests_bid db c).map Prod.fst) ∧
    ¬ (r ∈ live_requests_not_bid db c ∧ r ∈ (requests_bid_won db c).map Prod.fst) ∧
    ¬ (r ∈ (requests_bid db c).map Prod.fst ∧ r ∈ (requests_bid_won db c).map Prod.fst) := by
  refine ⟨mem_live_requests_not_bid db c r, mem_requests_bid_fst db c r,
    mem_requests_bid_won_fst db c r, ?_, ?_, ?_⟩
  · rintro ⟨h1, h2⟩
    rcases (mem_live_requests_not_bid db c r).mp h1 with ⟨_, _, hall⟩
    rcases (mem_requests_bid_fst db c r).mp h2 with ⟨_, _, b, hb, hbreq, hbc⟩
    exact hall b hb hbreq hbc
  · rintro ⟨h1, h2⟩
    rcases (mem_live_requests_not_bid db c r).mp h1 with ⟨_, hst, _⟩
    rcases (mem_requests_bid_won_fst db c r).mp h2 with ⟨_, hst2, _⟩
    exact hst hst2
  · rintro ⟨h1, h2⟩
    rcases (mem_requests_bid_fst db c r).mp h1 with ⟨_, hst, _⟩
    rcases (mem_requests_bid_won_fst db c r).mp h2 with ⟨_, hst2, _⟩
    exact hst hst2

/-- C3 counterexample: the trace create; bid; accept; bid-again reaches a
state in which request 1 carries exactly one Accepted bid while its status is
"Bid(s) received", refuting the claimed Complete ↔ exactly-one-Accepted
equivalence over reachable states. -/
theorem complete_iff_accepted_fails :
    Reachable dbAcceptedNotComplete ∧
    requestOneBidsReceived ∈ dbAcceptedNotComplete.requests ∧
    (acceptedBids dbAcceptedNotComplete 1).length = 1 ∧
    ¬ requestOneBidsReceived.request_status = "Complete" :=
  ⟨Reachable.step _ (Reachable.step _ (Reachable.step _ (Reachable.step _ Reachable.init))),
   by decide, by decide, by decide⟩

/-- C3 (amended): in every state reachable by lifecycle operations from the
empty state, every request has at most one bid with status Accepted, and
every request with status Complete has exactly one Accepted bid.  (The
converse — exactly one Accepted bid implying Complete — fails, because
`submit_bid` and `reject_bid` against a Complete request change its status
while leaving the Accepted bid in place.) -/
theorem reachable_accepted_invariants (db : DB) (h : Reachable db) :
    ∀ r ∈ db.requests, (acceptedBids db r.id).length ≤ 1 ∧
      (r.request_status = "Complete" → (acceptedBids db r.id).length = 1) := by
  have hinv := inv_reachable db h
  intro r hr
  refine ⟨hinv.accepted_le_one r.id, fun hc => ?_⟩
  rcases hinv.complete_active r hr hc with ⟨b0, h0, hacc⟩
  have hb0mem : b0 ∈ activeBids db r.id := by
    rw [h0]
    exact List.mem_singleton_self b0
  rcases List.mem_filter.mp hb0mem with ⟨hb0db, hb0q⟩
  simp only [decide_eq_true_eq] at hb0q
  have hmem2 : b0 ∈ acceptedBids db r.id :=
    List.mem_filter.mpr ⟨hb0db, by simp [hb0q.2, hacc]⟩
  exact Nat.le_antisymm (hinv.accepted_le_one r.id) (List.length_pos_of_mem hmem2)

/-- C3 witness: the Complete state `dbComplete` is reachable and its request
holds exactly one Accepted bid. -/
theorem reachable_accepted_invariants_witness :
    (acceptedBids dbComplete 1).length ≤ 1 ∧ (acceptedBids dbComplete 1).length = 1 :=
  have h := reachable_accepted_invariants dbComplete
    (Reachable.step _ (Reachable.step _ (Reachable.step _ Reachable.init)))
    { requestOneBidsReceived with request_status := "Complete" } (by decide)
  ⟨h.1, h.2 (by decide)⟩

/-- C4 counterexample: request 1 of `dbComplete` is Complete, yet
`submit_bid` against it is not refused — it inserts a bid and moves the
request to "Bid(s) received", leaving the Complete state. -/
theorem complete_not_terminal :
    dbComplete.requestStatus 1 = some "Complete" ∧
    (submit_bid suppB 1 { bid_amount := "50" } dbComplete).1.requestStatus 1 =
      some "Bid(s) received" ∧
    ¬ (submit_bid suppB 1 { bid_amount := "50" } dbComplete).1.bids = dbComplete.bids := by
  decide

/-- C4 (amended): only `cancel_request` treats Complete as terminal: it is
refused with an error and deletes nothing; `submit_bid` against a Complete
request succeeds and moves it to "Bid(s) received", and `reject_bid` against
a bid of a Complete request succeeds and marks the bid Rejected. -/
theorem complete_guards_only_cancel (db : DB) (caller supplier : User) (id : Nat) (r : Request)
    (hrole : caller.user_type = "Customer")
    (hsup : supplier.user_type = "Supplier")
    (hr : db.findRequest id = some r)
    (hc : r.request_status = "Complete") :
    remove_request caller id db =
      (db, { flashes := [("Request is complete. Unable to remove.", "error")],
             action := Action.returnedNone }) ∧
    (∀ form : BidFormData,
      (submit_bid supplier id form db).1.requestStatus id = some "Bid(s) received") ∧
    (∀ bid_id : Nat, ∀ b : Bid, db.findBid bid_id = some b → b.request_id = id →
      (reject_bid caller bid_id db).1.bidStatus bid_id = some "Rejected") := by
  have hrid : r.id = id := by simpa using List.find?_some hr
  refine ⟨?_, ?_, ?_⟩
  · rw [remove_request, customer_gate_pos _ _ _ hrole]
    unfold remove_request_view
    rw [DB.requestStatus, hr]
    simp [hc]
  · intro form
    rw [submit_bid, supplier_gate_pos _ _ _ hsup, DB.requestStatus]
    rw [show (submit_bid_view id supplier form db).1.findRequest id =
        (db.findRequest id).map (fun x =>
          if x.id = id then { x with request_status := "Bid(s) received" } else x) from
      findRequest_updateRequestStatusWhereId _ id "Bid(s) received" id]
    rw [hr]
    simp [hrid]
  · intro bid_id b hbfind hbreq
    rw [reject_bid, customer_gate_pos _ _ _ hrole, reject_bid_view_found db bid_id b hbfind]
    have hbid : b.id = bid_id := by simpa using List.find?_some hbfind
    by_cases hcnt : (activeBids db b.request_id).length = 1
    · rw [if_pos hcnt]
      rw [DB.bidStatus, findBid_updateRequestStatusWhereId, findBid_updateBidStatusWhereId,
        hbfind]
      simp [hbid]
    · rw [if_neg hcnt]
      rw [DB.bidStatus, findBid_updateBidStatusWhereId, hbfind]
      simp [hbid]

/-- C4 amended-claim witness: on `dbComplete`, cancellation is refused while
bid submission and rejection still mutate. -/
theorem complete_guards_only_cancel_witness :
    remove_request custA 1 dbComplete =
      (dbComplete, { flashes := [("Request is complete. Unable to remove.", "error")],
                     action := Action.returnedNone }) ∧
    (submit_bid suppB 1 { bid_amount := "50" } dbComplete).1.requestStatus 1 =
      some "Bid(s) received" ∧
    (reject_bid custA 1 dbComplete).1.bidStatus 1 = some "Rejected" := by
  have h := complete_guards_only_cancel dbComplete custA suppB 1
    { requestOneBidsReceived with request_status := "Complete" }
    (by decide) (by decide) (by decide) (by decide)
  exact ⟨h.1, h.2.1 { bid_amount := "50" }, h.2.2 1 acceptedBidOne (by decide) (by decide)⟩

end ClaimTheorems

end MoveMyPallets
